import Mathlib

/-!
Verification of the keep-alive tool (`main.go`) against its design
specification.  The program is a small event loop: a periodic ticker
drives a platform-specific "simulate activity" strategy that shells out
to an external helper, while an OS-signal channel and a keyboard-quit
channel can each terminate the loop.  We embed the startup platform
check, the strategy dispatch of `_simulateActivity`, the select loop of
`main`, and the stdin reader `_monitorKeyboard` (including the
tokenising semantics of Go's `fmt.Scanln`, which the reader relies on),
and prove or refute the specified properties.
-/

namespace KeepAlive

/-- An external command invocation: executable name plus argument list
(mirrors `exec.Command(name, args...)` in `main.go`). -/
structure Cmd where
  name : String
  args : List String
deriving DecidableEq

/-- The tick interval constant `defaultInterval = 30 * time.Second`,
in seconds. -/
def defaultInterval : Nat := 30

/-- The AppleScript body from the darwin fallback branch of
`_simulateActivity` (the Go raw-string literal, byte for byte). -/
def appleScript : String :=
  "\n\t\t\t\ttell application \"System Events\"\n\t\t\t\t\tset currentPos to (get position of mouse)\n\t\t\t\t\tset mouseX to item 1 of currentPos\n\t\t\t\t\tset mouseY to item 2 of currentPos\n\t\t\t\t\tset mouse position to \x7bmouseX + 1, mouseY + 1\x7d\n\t\t\t\t\tdelay 0.01\n\t\t\t\t\tset mouse position to \x7bmouseX, mouseY\x7d\n\t\t\t\tend tell\n\t\t\t"

/-- The PowerShell script from the windows branch of
`_simulateActivity` (the Go raw-string literal, byte for byte). -/
def powershellScript : String :=
  "\n\t\t\tAdd-Type -TypeDefinition \x27\n\t\t\t\tusing System;\n\t\t\t\tusing System.Runtime.InteropServices;\n\t\t\t\tpublic class Win32 \x7b\n\t\t\t\t\t[DllImport(\"user32.dll\")]\n\t\t\t\t\tpublic static extern bool GetCursorPos(out POINT lpPoint);\n\t\t\t\t\t[DllImport(\"user32.dll\")]\n\t\t\t\t\tpublic static extern bool SetCursorPos(int x, int y);\n\t\t\t\t\tpublic struct POINT \x7b public int x; public int y; \x7d\n\t\t\t\t\x7d\n\t\t\t\x27;\n\t\t\t$pos = New-Object Win32+POINT;\n\t\t\t[Win32]::GetCursorPos([ref]$pos);\n\t\t\t[Win32]::SetCursorPos($pos.x + 1, $pos.y + 1);\n\t\t\tStart-Sleep -Milliseconds 10;\n\t\t\t[Win32]::SetCursorPos($pos.x, $pos.y);\n\t\t"

/-- The cliclick invocation built on darwin when `cliclick` is found on
the search path: `exec.Command("cliclick", "m:+1,+1", "w:10", "m:-1,-1")`. -/
def cliclickCmd : Cmd :=
  { name := "cliclick", args := ["m:+1,+1", "w:10", "m:-1,-1"] }

/-- The osascript fallback invocation built on darwin when `cliclick`
is absent: `exec.Command("osascript", "-e", script)`. -/
def osascriptCmd : Cmd :=
  { name := "osascript", args := ["-e", appleScript] }

/-- The PowerShell invocation built on windows:
`exec.Command("powershell", "-Command", script)`. -/
def windowsCmd : Cmd :=
  { name := "powershell", args := ["-Command", powershellScript] }

/-- The darwin branch of `_simulateActivity`: `exec.LookPath("cliclick")`
succeeding selects the cliclick command, otherwise the osascript
fallback.  The availability test is performed inside the call, anew on
every invocation. -/
def darwinCmd (cliclickOnPath : Bool) : Cmd :=
  if cliclickOnPath then cliclickCmd else osascriptCmd

/-- The `switch runtime.GOOS` dispatch inside `_simulateActivity`:
`none` corresponds to the `default:` arm that logs and returns without
building any command. -/
def dispatchCmd (goos : String) (cliclickOnPath : Bool) : Option Cmd :=
  if goos = "darwin" then some (darwinCmd cliclickOnPath)
  else if goos = "windows" then some windowsCmd
  else none

/-- The startup error message printed by `main` for an unsupported
`runtime.GOOS`. -/
def startupErrorMsg (goos : String) : String :=
  "Error: This tool supports macOS and Windows only (detected: " ++ goos ++ ")"

/-- Outcome of the startup `switch runtime.GOOS` in `main`: either fall
through to the event loop, or print a message and `os.Exit` with the
given status. -/
inductive StartupOutcome where
  | proceed : StartupOutcome
  | exitWith : Nat → String → StartupOutcome
deriving DecidableEq

/-- The startup platform check in `main` (lines 34-43): "darwin" and
"windows" fall through; every other identifier prints the error naming
the platform and exits with status 1. -/
def startupCheck (goos : String) : StartupOutcome :=
  if goos = "darwin" then StartupOutcome.proceed
  else if goos = "windows" then StartupOutcome.proceed
  else StartupOutcome.exitWith 1 (startupErrorMsg goos)

/-- The external state one tick's `_simulateActivity` call observes:
whether `exec.LookPath("cliclick")` succeeds, the outcome of
`cmd.Run()` (`none` = success, `some msg` = an error whose rendering is
`msg`), and the wall-clock timestamp rendered by
`time.Now().Format("15:04:05")`. -/
structure TickEnv where
  cliclickOnPath : Bool
  runResult : Option String
  timestamp : String
deriving DecidableEq

/-- What one `_simulateActivity` call produces: the command it chose to
run (`none` in the unreachable unsupported-OS arm) and the log lines it
prints.  The Go function returns nothing and raises nothing; every
outcome of the external invocation ends in this report. -/
structure TickReport where
  cmd : Option Cmd
  logs : List String
deriving DecidableEq

/-- `_simulateActivity` (lines 74-140): dispatch on `runtime.GOOS`,
run the chosen command, then branch only on whether `cmd.Run()`
returned an error — a darwin failure logs a warning plus a
troubleshooting hint, a windows failure logs the warning alone, success
logs a single activity line.  The function always returns normally. -/
def simulateActivity (goos : String) (env : TickEnv) : TickReport :=
  match dispatchCmd goos env.cliclickOnPath with
  | none =>
    { cmd := none
      logs := ["[" ++ env.timestamp ++ "] Error: Unsupported operating system: " ++ goos] }
  | some c =>
    match env.runResult with
    | some errText =>
      if goos = "darwin" then
        { cmd := some c
          logs := ["[" ++ env.timestamp ++ "] Warning: Failed to simulate mouse activity: " ++ errText,
                   "[" ++ env.timestamp ++ "] Troubleshooting: Try \x27brew install cliclick\x27 or grant accessibility permissions"] }
      else
        { cmd := some c
          logs := ["[" ++ env.timestamp ++ "] Warning: Failed to simulate mouse activity: " ++ errText] }
    | none =>
      { cmd := some c
        logs := ["[" ++ env.timestamp ++ "] Simulated mouse activity"] }

/-- One event observed at the `select` boundary of `main`'s loop: a
shutdown signal on `sigChan`, a keyboard quit on `keyboardChan`, or a
ticker fire carrying the external state that tick's strategy call will
observe. -/
inductive Event where
  | sig : Event
  | keyboard : Event
  | tick : TickEnv → Event

/-- Result of running `main`'s loop over a finite trace of events: the
tick reports produced in order, and `some code` when a termination
event made the loop return (the process then exits with that status),
`none` when the trace was exhausted with the loop still running. -/
structure LoopResult where
  reports : List TickReport
  exitCode : Option Nat
deriving DecidableEq

/-- The `for { select { ... } }` loop of `main` (lines 60-71): a signal
or keyboard event returns at once (Go `return` from `main`, process
exit status 0); a ticker event runs `_simulateActivity` synchronously
and continues with the rest of the trace. -/
def runLoop (goos : String) : List Event → LoopResult
  | [] => { reports := [], exitCode := none }
  | Event.sig :: _ => { reports := [], exitCode := some 0 }
  | Event.keyboard :: _ => { reports := [], exitCode := some 0 }
  | Event.tick env :: rest =>
    let r := runLoop goos rest
    { reports := simulateActivity goos env :: r.reports, exitCode := r.exitCode }

/-- `main` after the banner: the startup platform check, then (only if
it proceeds) the event loop.  Returns the tick reports and the process
exit status (`some 1` from `os.Exit(1)` on an unsupported platform). -/
def runProgram (goos : String) (events : List Event) : List TickReport × Option Nat :=
  match startupCheck goos with
  | StartupOutcome.exitWith code _ => ([], some code)
  | StartupOutcome.proceed =>
    let r := runLoop goos events
    (r.reports, r.exitCode)

/- ------------------------------------------------------------------
The stdin reader `_monitorKeyboard` and the semantics of
`fmt.Scanln(&input)` it builds on.  `fmt.Scanln` with one string
operand is Go standard-library code (not part of this repository), so
we embed its actual behaviour on a buffered character stream: skip
blanks (erroring on a newline where a token is expected, and on end of
input), read a maximal run of non-space characters as the token, then
require only blanks up to the newline — consuming, on violation, the
blanks and the first offending character before reporting the error.
Unconsumed characters stay in the stream for the next call.
------------------------------------------------------------------ -/

/-- The whitespace set of Go's `fmt` scanner (its `space` table):
horizontal/vertical blanks, newline, and the Unicode space runes. -/
def goIsSpace (c : Char) : Bool :=
  (0x09 ≤ c.val && c.val ≤ 0x0d) || c.val == 0x20 || c.val == 0x85 || c.val == 0xa0 ||
  c.val == 0x1680 || (0x2000 ≤ c.val && c.val ≤ 0x200a) || c.val == 0x2028 ||
  c.val == 0x2029 || c.val == 0x202f || c.val == 0x205f || c.val == 0x3000

/-- `ss.SkipSpace` with `nlIsSpace = false`: consume blanks; a newline
found while skipping is the "unexpected newline" error (first
component `true`), consuming the newline; a non-space character is
left in the stream. -/
def skipSpace : List Char → Bool × List Char
  | [] => (false, [])
  | c :: rest =>
    if c = '\n' then (true, rest)
    else if goIsSpace c then skipSpace rest
    else (false, c :: rest)

/-- `ss.token(true, notSpace)` after blanks have been skipped: the
maximal prefix of non-space characters, and the rest of the stream. -/
def readToken : List Char → List Char × List Char
  | [] => ([], [])
  | c :: rest =>
    if goIsSpace c then ([], c :: rest)
    else
      let (tok, rest2) := readToken rest
      (c :: tok, rest2)

/-- The trailing-newline check of `doScan` when `nlIsEnd` is set:
blanks are skipped, a newline or end of input succeeds, and any other
character is consumed and reported as the "expected newline" error. -/
def checkNewline : List Char → Bool × List Char
  | [] => (true, [])
  | c :: rest =>
    if c = '\n' then (true, rest)
    else if goIsSpace c then checkNewline rest
    else (false, rest)

/-- The three error outcomes of `fmt.Scanln(&input)` that
`_monitorKeyboard` can observe (it only tests `err != nil`, so their
identity matters only for stating which branch fired). -/
inductive ScanErr where
  | unexpectedNewline : ScanErr
  | eofError : ScanErr
  | expectedNewline : ScanErr
deriving DecidableEq

/-- Result of one `fmt.Scanln(&input)` call. -/
inductive ScanResult where
  | ok : String → ScanResult
  | err : ScanErr → ScanResult
deriving DecidableEq

/-- One `fmt.Scanln(&input)` call on the buffered stream: skip blanks
(newline there is an error), fail on end of input, read the token, then
demand a newline.  Returns the result and the unconsumed remainder of
the stream. -/
def scanln (input : List Char) : ScanResult × List Char :=
  match skipSpace input with
  | (true, rest) => (ScanResult.err ScanErr.unexpectedNewline, rest)
  | (false, rest) =>
    match rest with
    | [] => (ScanResult.err ScanErr.eofError, [])
    | _ :: _ =>
      let (tok, rest2) := readToken rest
      match checkNewline rest2 with
      | (true, rest3) => (ScanResult.ok (String.mk tok), rest3)
      | (false, rest3) => (ScanResult.err ScanErr.expectedNewline, rest3)

/-- The quit test of `_monitorKeyboard`:
`input == "q" || input == "quit" || input == "exit"`. -/
def isQuitToken (input : String) : Bool :=
  input == "q" || input == "quit" || input == "exit"

/-- The body of `_monitorKeyboard`'s `for` loop, fuelled: each
iteration calls `scanln`; an error `continue`s, a quit token sends on
`keyboardChan` and returns, any other token loops.  Returns the number
of sends.  Every `scanln` on a nonempty stream consumes at least one
character, so fuel equal to the stream length reaches the point where
the real loop blocks forever on an exhausted stream without sending. -/
def monitorAux : Nat → List Char → Nat
  | 0, _ => 0
  | _ + 1, [] => 0
  | fuel + 1, c :: rest =>
    match scanln (c :: rest) with
    | (ScanResult.ok tok, rest2) =>
      if isQuitToken tok then 1 else monitorAux fuel rest2
    | (ScanResult.err _, rest2) => monitorAux fuel rest2

/-- `_monitorKeyboard` (lines 143-158) run over a finite stdin stream:
the number of termination signals it sends before the stream is
exhausted (after which the real loop blocks, or spins on the end-of-
input error, without ever sending again). -/
def monitorKeyboard (input : List Char) : Nat :=
  monitorAux input.length input

/-- Specification-side view of a trace: the tick environments that
occur strictly before the first termination event. -/
def ticksBeforeTerm : List Event → List TickEnv
  | [] => []
  | Event.sig :: _ => []
  | Event.keyboard :: _ => []
  | Event.tick env :: rest => env :: ticksBeforeTerm rest

/-- Specification-side view of a trace: whether it contains a
termination event (signal or keyboard quit) at all. -/
def hasTerm : List Event → Bool
  | [] => false
  | Event.sig :: _ => true
  | Event.keyboard :: _ => true
  | Event.tick _ :: rest => hasTerm rest

/-- A tick environment with the external invocation forced to succeed;
used to compare a run against the same run with all failures removed. -/
def scrubEnv (env : TickEnv) : TickEnv :=
  { env with runResult := none }

/-- `scrubEnv` lifted to trace events. -/
def scrubEvent : Event → Event
  | Event.tick env => Event.tick (scrubEnv env)
  | e => e

/-- Substring test on character lists: does `pat` occur contiguously
inside the second argument? -/
def listHasSubstr (pat : List Char) : List Char → Bool
  | [] => pat.isPrefixOf []
  | c :: rest => pat.isPrefixOf (c :: rest) || listHasSubstr pat rest

/-- Substring test on strings (via their character lists). -/
def strContainsSubstr (s pat : String) : Bool :=
  listHasSubstr pat.data s.data

/-- Specification-side predicate for "carries a human-readable
remediation hint": some log line mentions installing something,
granting a permission, or troubleshooting. -/
def hasRemediationHint (logs : List String) : Bool :=
  logs.any fun l =>
    strContainsSubstr l "install" || strContainsSubstr l "permission" ||
    strContainsSubstr l "Troubleshooting"

/- ------------------------------------------------------------------
Lemma toolbox for the scanner model.
------------------------------------------------------------------ -/

/-- `skipSpace` never lengthens the stream. -/
theorem skipSpace_length_le (l : List Char) : (skipSpace l).2.length ≤ l.length := by
  induction l with
  | nil => simp [skipSpace]
  | cons c rest ih =>
    by_cases hn : c = '\n'
    · simp [skipSpace, hn]
    · by_cases hs : goIsSpace c
      · simp only [skipSpace, if_neg hn, if_pos hs, List.length_cons]
        omega
      · simp [skipSpace, hn, hs]

/-- A `skipSpace` that hits the unexpected-newline error consumed at
least the newline. -/
theorem skipSpace_true_lt (l : List Char) (h : (skipSpace l).1 = true) :
    (skipSpace l).2.length < l.length := by
  induction l with
  | nil => simp [skipSpace] at h
  | cons c rest ih =>
    by_cases hn : c = '\n'
    · simp [skipSpace, hn]
    · by_cases hs : goIsSpace c
      · simp only [skipSpace, if_neg hn, if_pos hs] at h ⊢
        have := ih h
        simp only [List.length_cons]
        omega
      · simp [skipSpace, hn, hs] at h

/-- A successful `skipSpace` leaves a non-space character (or nothing)
at the head of the stream. -/
theorem skipSpace_false_head (l : List Char) (c : Char) (r : List Char)
    (h : skipSpace l = (false, c :: r)) : goIsSpace c = false := by
  induction l with
  | nil => simp [skipSpace] at h
  | cons a rest ih =>
    by_cases hn : a = '\n'
    · simp [skipSpace, hn] at h
    · by_cases hs : goIsSpace a
      · simp only [skipSpace, if_neg hn, if_pos hs] at h
        exact ih h
      · simp only [skipSpace, if_neg hn, if_neg hs] at h
        rw [Prod.mk.injEq] at h
        obtain ⟨-, h2⟩ := h
        obtain ⟨rfl, -⟩ := List.cons.inj h2
        simpa using hs

/-- `readToken` never lengthens the stream. -/
theorem readToken_length_le (l : List Char) : (readToken l).2.length ≤ l.length := by
  induction l with
  | nil => simp [readToken]
  | cons c rest ih =>
    by_cases hs : goIsSpace c
    · simp [readToken, hs]
    · simp only [readToken, if_neg hs, List.length_cons]
      omega

/-- `checkNewline` never lengthens the stream. -/
theorem checkNewline_length_le (l : List Char) : (checkNewline l).2.length ≤ l.length := by
  induction l with
  | nil => simp [checkNewline]
  | cons c rest ih =>
    by_cases hn : c = '\n'
    · simp [checkNewline, hn]
    · by_cases hs : goIsSpace c
      · simp only [checkNewline, if_neg hn, if_pos hs, List.length_cons]
        omega
      · simp [checkNewline, hn, hs]

/-- Every `fmt.Scanln` call on a nonempty stream consumes at least one
character; this is what lets fuel equal to the stream length drive the
reader model to the blocking point. -/
theorem scanln_consumes (l : List Char) (h : l ≠ []) :
    (scanln l).2.length < l.length := by
  rcases hs : skipSpace l with ⟨e, rest⟩
  cases e with
  | true =>
    have := skipSpace_true_lt l (by rw [hs])
    rw [hs] at this
    simp only [scanln, hs]
    exact this
  | false =>
    have hle : rest.length ≤ l.length := by
      have := skipSpace_length_le l
      rw [hs] at this
      exact this
    match rest with
    | [] =>
      simp only [scanln, hs, List.length_nil]
      exact List.length_pos.mpr h
    | c :: r =>
      have hc : goIsSpace c = false := skipSpace_false_head l c r hs
      have hrt : (readToken (c :: r)).2.length ≤ r.length := by
        simp only [readToken, if_neg (by simp [hc] : ¬ goIsSpace c = true)]
        exact readToken_length_le r
      rcases hcn : checkNewline (readToken (c :: r)).2 with ⟨b, rest3⟩
      have hcn_le : rest3.length ≤ (readToken (c :: r)).2.length := by
        have := checkNewline_length_le (readToken (c :: r)).2
        rw [hcn] at this
        exact this
      have : rest3.length < l.length := by
        have := List.length_cons c r ▸ hle
        omega
      cases b with
      | true => simp only [scanln, hs, hcn]; exact this
      | false => simp only [scanln, hs, hcn]; exact this

/-- The reader model sends nothing on an exhausted stream, whatever
the fuel. -/
theorem monitorAux_nil (fuel : Nat) : monitorAux fuel [] = 0 := by
  cases fuel <;> simp [monitorAux]

/-- The reader model never sends more than one signal. -/
theorem monitorAux_le_one (fuel : Nat) : ∀ l, monitorAux fuel l ≤ 1 := by
  induction fuel with
  | zero => intro l; simp [monitorAux]
  | succ n ih =>
    intro l
    match l with
    | [] => simp [monitorAux]
    | c :: rest =>
      simp only [monitorAux]
      rcases h : scanln (c :: rest) with ⟨res, rest2⟩
      cases res with
      | ok tok =>
        by_cases hq : isQuitToken tok
        · simp [h, hq]
        · simp [h, hq, ih]
      | err e => simp [h, ih]

/-- Any fuel at least the stream length gives the same reader
behaviour — the recursion only ever runs out of stream, not of fuel. -/
theorem monitorAux_congr (f1 : Nat) : ∀ f2 l, l.length ≤ f1 → l.length ≤ f2 →
    monitorAux f1 l = monitorAux f2 l := by
  induction f1 with
  | zero =>
    intro f2 l h1 _
    have : l = [] := List.eq_nil_of_length_eq_zero (Nat.le_zero.mp h1)
    subst this
    rw [monitorAux_nil, monitorAux_nil]
  | succ n ih =>
    intro f2 l h1 h2
    match l with
    | [] => rw [monitorAux_nil, monitorAux_nil]
    | c :: rest =>
      match f2 with
      | 0 => simp at h2
      | m + 1 =>
        simp only [monitorAux]
        rcases h : scanln (c :: rest) with ⟨res, rest2⟩
        have hlt : rest2.length < (c :: rest).length := by
          have := scanln_consumes (c :: rest) (by simp)
          rw [h] at this
          exact this
        have hb1 : rest2.length ≤ n := by
          simp only [List.length_cons] at h1 hlt
          omega
        have hb2 : rest2.length ≤ m := by
          simp only [List.length_cons] at h2 hlt
          omega
        cases res with
        | ok tok =>
          by_cases hq : isQuitToken tok
          · simp [hq]
          · simp only [hq, if_false, Bool.false_eq_true]
            exact ih m rest2 hb1 hb2
        | err e => exact ih m rest2 hb1 hb2

/-- One unfolding of the reader on a nonempty stream, phrased with
`monitorKeyboard` on both sides. -/
theorem monitorKeyboard_step (l : List Char) (hne : l ≠ []) :
    monitorKeyboard l =
      match scanln l with
      | (ScanResult.ok tok, rest) =>
        if isQuitToken tok then 1 else monitorKeyboard rest
      | (ScanResult.err _, rest) => monitorKeyboard rest := by
  match l with
  | c :: r =>
    rcases h : scanln (c :: r) with ⟨res, rest⟩
    have hlt : rest.length < (c :: r).length := by
      have := scanln_consumes (c :: r) (by simp)
      rw [h] at this
      exact this
    simp only [monitorKeyboard, List.length_cons, monitorAux, h]
    cases res with
    | ok tok =>
      by_cases hq : isQuitToken tok
      · simp [hq]
      · simp only [hq, if_false, Bool.false_eq_true]
        exact monitorAux_congr r.length rest.length rest
          (by simp only [List.length_cons] at hlt; omega) (le_refl _)
    | err e =>
      exact monitorAux_congr r.length rest.length rest
        (by simp only [List.length_cons] at hlt; omega) (le_refl _)

/-- A character outside the scanner's whitespace set is not a
newline. -/
theorem nonspace_ne_newline (c : Char) (h : goIsSpace c = false) : c ≠ '\n' := by
  intro he
  subst he
  simp [goIsSpace] at h

/-- `skipSpace` leaves a stream headed by a non-space character
untouched. -/
theorem skipSpace_nonspace_head (c : Char) (r : List Char) (h : goIsSpace c = false) :
    skipSpace (c :: r) = (false, c :: r) := by
  simp [skipSpace, nonspace_ne_newline c h, h]

/-- `readToken` on a run of non-space characters followed by a space
character reads exactly that run. -/
theorem readToken_append_stop (t : List Char) (d : Char) (s : List Char)
    (hd : goIsSpace d = true) (ht : ∀ c ∈ t, goIsSpace c = false) :
    readToken (t ++ d :: s) = (t, d :: s) := by
  induction t with
  | nil => simp [readToken, hd]
  | cons a t' ih =>
    have ha : goIsSpace a = false := ht a (by simp)
    have ih' := ih fun c hc => ht c (by simp [hc])
    simp [readToken, ha, ih']

/-- A `fmt.Scanln` call on a single whitespace-free token terminated by
a newline succeeds with exactly that token, consuming the whole line. -/
theorem scanln_token_line (t : List Char) (hne : t ≠ [])
    (ht : ∀ c ∈ t, goIsSpace c = false) :
    scanln (t ++ ['\n']) = (ScanResult.ok (String.mk t), []) := by
  match t with
  | a :: t' =>
    have ha : goIsSpace a = false := ht a (by simp)
    have hskip : skipSpace ((a :: t') ++ ['\n']) = (false, (a :: t') ++ ['\n']) := by
      rw [List.cons_append]
      exact skipSpace_nonspace_head a (t' ++ ['\n']) ha
    have hrt : readToken ((a :: t') ++ ['\n']) = (a :: t', '\n' :: []) :=
      readToken_append_stop (a :: t') '\n' [] (by decide) ht
    have hcheck : checkNewline ('\n' :: []) = (true, []) := by simp [checkNewline]
    simp only [List.cons_append] at hskip hrt ⊢
    simp [scanln, hskip, hrt, hcheck]

/-- The reader on a stream holding one whitespace-free token and a
newline: it sends exactly when the token is a quit token. -/
theorem monitor_token_line (t : List Char) (hne : t ≠ [])
    (ht : ∀ c ∈ t, goIsSpace c = false) :
    monitorKeyboard (t ++ ['\n']) =
      if isQuitToken (String.mk t) then 1 else 0 := by
  rw [monitorKeyboard_step (t ++ ['\n']) (by simp), scanln_token_line t hne ht]
  by_cases hq : isQuitToken (String.mk t)
  · simp [hq]
  · simp [hq, monitorKeyboard, monitorAux]

/-- A `fmt.Scanln` call on a line of two whitespace-free tokens: the
first token is read, the trailing-newline check walks over the blank,
meets the second token's first character, consumes it and fails with
the expected-newline error; the rest of the second token and the
newline stay in the stream. -/
theorem scanln_two_token (t1 : List Char) (b : Char) (t2 : List Char)
    (h1 : t1 ≠ []) (ht1 : ∀ c ∈ t1, goIsSpace c = false)
    (hb : goIsSpace b = false) :
    scanln (t1 ++ ' ' :: (b :: t2 ++ ['\n'])) =
      (ScanResult.err ScanErr.expectedNewline, t2 ++ ['\n']) := by
  match t1 with
  | a :: t1' =>
    have ha : goIsSpace a = false := ht1 a (by simp)
    have hskip : skipSpace ((a :: t1') ++ ' ' :: (b :: t2 ++ ['\n'])) =
        (false, (a :: t1') ++ ' ' :: (b :: t2 ++ ['\n'])) := by
      rw [List.cons_append]
      exact skipSpace_nonspace_head a _ ha
    have hrt : readToken ((a :: t1') ++ ' ' :: (b :: t2 ++ ['\n'])) =
        (a :: t1', ' ' :: (b :: t2 ++ ['\n'])) :=
      readToken_append_stop (a :: t1') ' ' (b :: t2 ++ ['\n']) (by decide) ht1
    have hcn : checkNewline (' ' :: (b :: t2 ++ ['\n'])) = (false, t2 ++ ['\n']) := by
      simp [checkNewline, nonspace_ne_newline b hb, hb,
        (by decide : goIsSpace ' ' = true)]
    simp only [List.cons_append] at hskip hrt hcn ⊢
    simp [scanln, hskip, hrt, hcn]

/-- A substring of a list is a substring of any extension on the
left. -/
theorem listHasSubstr_append_right (pat y : List Char) (x : List Char)
    (h : listHasSubstr pat y = true) : listHasSubstr pat (x ++ y) = true := by
  induction x with
  | nil => simpa using h
  | cons c x' ih =>
    rw [List.cons_append]
    simp only [listHasSubstr, Bool.or_eq_true]
    exact Or.inr ih

/-- A substring of a string is a substring of any extension on the
left. -/
theorem strContainsSubstr_append_right (a b pat : String)
    (h : strContainsSubstr b pat = true) :
    strContainsSubstr (a ++ b) pat = true := by
  simp only [strContainsSubstr, String.data_append]
  exact listHasSubstr_append_right pat.data b.data a.data h

/- ------------------------------------------------------------------
Claim theorems.
------------------------------------------------------------------ -/

/-- Claim C1: a detected platform identifier other than "darwin" or
"windows" makes startup print the error naming the detected platform
and exit with status 1 before the event loop, so no tick report is
produced whatever events would have arrived; for both supported
identifiers startup does not exit early and the program is exactly the
event loop. -/
theorem c1_startup_platform_check (goos : String) (events : List Event) :
    (goos ≠ "darwin" → goos ≠ "windows" →
      startupCheck goos = StartupOutcome.exitWith 1 (startupErrorMsg goos) ∧
      (∃ pre post, startupErrorMsg goos = pre ++ goos ++ post) ∧
      runProgram goos events = ([], some 1)) ∧
    ((goos = "darwin" ∨ goos = "windows") →
      runProgram goos events =
        ((runLoop goos events).reports, (runLoop goos events).exitCode)) := by
  constructor
  · intro h1 h2
    have hsc : startupCheck goos = StartupOutcome.exitWith 1 (startupErrorMsg goos) := by
      simp [startupCheck, h1, h2]
    refine ⟨hsc,
      ⟨"Error: This tool supports macOS and Windows only (detected: ", ")", rfl⟩, ?_⟩
    simp [runProgram, hsc]
  · intro h
    have hsc : startupCheck goos = StartupOutcome.proceed := by
      rcases h with h | h <;> simp [startupCheck, h]
    simp [runProgram, hsc]

/-- Claim C1 witness: exercised at "linux" (unsupported: exits 1, no
tick reports) and at "darwin" (supported: proceeds to the loop). -/
theorem c1_startup_platform_check_witness :
    (startupCheck "linux" = StartupOutcome.exitWith 1 (startupErrorMsg "linux") ∧
     (∃ pre post, startupErrorMsg "linux" = pre ++ "linux" ++ post) ∧
     runProgram "linux" [] = ([], some 1)) ∧
    runProgram "darwin" [Event.sig] =
      ((runLoop "darwin" [Event.sig]).reports, (runLoop "darwin" [Event.sig]).exitCode) :=
  ⟨(c1_startup_platform_check "linux" []).1 (by decide) (by decide),
   (c1_startup_platform_check "darwin" [Event.sig]).2 (Or.inl rfl)⟩

/-- Claim C2: over any finite event trace, the loop produces exactly
one strategy report per tick event arriving before the first
termination event, in order (invocations are sequential, one per
elapsed interval); the first signal or keyboard event makes the loop
return — ticks after it never fire — and the process then exits with
status 0, while a trace with no termination event leaves the loop
running. -/
theorem c2_loop_ticks_and_termination (goos : String) (events : List Event) :
    (runLoop goos events).reports =
      (ticksBeforeTerm events).map (simulateActivity goos) ∧
    (runLoop goos events).exitCode = (if hasTerm events then some 0 else none) := by
  induction events with
  | nil => simp [runLoop, ticksBeforeTerm, hasTerm]
  | cons e rest ih =>
    cases e with
    | sig => simp [runLoop, ticksBeforeTerm, hasTerm]
    | keyboard => simp [runLoop, ticksBeforeTerm, hasTerm]
    | tick env => simp [runLoop, ticksBeforeTerm, hasTerm, ih.1, ih.2]

set_option maxRecDepth 16384 in
/-- Claim C5: on macOS with cliclick on the search path the strategy is
the single invocation `cliclick m:+1,+1 w:10 m:-1,-1` (move one unit
along both axes, wait 10ms, move back); without cliclick it is an
osascript invocation whose script reads the pointer position, offsets
it by one unit in each axis, waits briefly, and restores the original
coordinates. -/
theorem c5_darwin_strategy :
    darwinCmd true = { name := "cliclick", args := ["m:+1,+1", "w:10", "m:-1,-1"] } ∧
    darwinCmd false = { name := "osascript", args := ["-e", appleScript] } ∧
    strContainsSubstr appleScript "set currentPos to (get position of mouse)" = true ∧
    strContainsSubstr appleScript "set mouse position to \x7bmouseX + 1, mouseY + 1\x7d" = true ∧
    strContainsSubstr appleScript "delay 0.01" = true ∧
    strContainsSubstr appleScript "set mouse position to \x7bmouseX, mouseY\x7d" = true := by
  refine ⟨rfl, rfl, ?_, ?_, ?_, ?_⟩ <;> rfl

set_option maxRecDepth 16384 in
/-- Claim C6: on Windows the strategy invokes powershell with an inline
script that declares DllImport bindings to the native GetCursorPos and
SetCursorPos calls, reads the current cursor position, sets it to a
one-unit diagonal offset, sleeps 10ms, then restores the original
position. -/
theorem c6_windows_strategy :
    windowsCmd = { name := "powershell", args := ["-Command", powershellScript] } ∧
    dispatchCmd "windows" true = some windowsCmd ∧
    dispatchCmd "windows" false = some windowsCmd ∧
    strContainsSubstr powershellScript "[DllImport(\"user32.dll\")]" = true ∧
    strContainsSubstr powershellScript
      "public static extern bool GetCursorPos(out POINT lpPoint)" = true ∧
    strContainsSubstr powershellScript
      "public static extern bool SetCursorPos(int x, int y)" = true ∧
    strContainsSubstr powershellScript "[Win32]::GetCursorPos([ref]$pos)" = true ∧
    strContainsSubstr powershellScript "[Win32]::SetCursorPos($pos.x + 1, $pos.y + 1)" = true ∧
    strContainsSubstr powershellScript "Start-Sleep -Milliseconds 10" = true ∧
    strContainsSubstr powershellScript "[Win32]::SetCursorPos($pos.x, $pos.y)" = true := by
  refine ⟨rfl, ?_, ?_, ?_, ?_, ?_, ?_, ?_, ?_, ?_⟩ <;> rfl

/-- Claim C3: errors of a single tick's strategy invocation are
absorbed inside `_simulateActivity` — replacing every tick's external
failure by success changes neither the loop's exit status nor the
number of tick invocations, and on a failing tick the chosen command is
the same one the scrubbed (successful) tick chooses, i.e. the platform
logic is unconditional; the loop equation shows a failing tick's report
is emitted and the loop proceeds with the remaining events. -/
theorem c3_tick_errors_absorbed (goos : String) (events : List Event)
    (env : TickEnv) (e : String) :
    ((runLoop goos (events.map scrubEvent)).exitCode = (runLoop goos events).exitCode ∧
     (runLoop goos (events.map scrubEvent)).reports.length =
       (runLoop goos events).reports.length) ∧
    (env.runResult = some e →
      (simulateActivity goos env).cmd = (simulateActivity goos (scrubEnv env)).cmd ∧
      runLoop goos (Event.tick env :: events) =
        { reports := simulateActivity goos env :: (runLoop goos events).reports,
          exitCode := (runLoop goos events).exitCode }) := by
  constructor
  · induction events with
    | nil => simp [runLoop]
    | cons ev rest ih =>
      cases ev with
      | sig => simp [scrubEvent, runLoop]
      | keyboard => simp [scrubEvent, runLoop]
      | tick env2 =>
        simp only [List.map_cons, scrubEvent, runLoop, List.length_cons]
        exact ⟨ih.1, by rw [ih.2]⟩
  · intro h
    refine ⟨?_, by simp [runLoop]⟩
    cases hd : dispatchCmd goos env.cliclickOnPath with
    | none => simp [simulateActivity, scrubEnv, hd, h]
    | some c =>
      by_cases hg : goos = "darwin"
      · subst hg
        simp [simulateActivity, scrubEnv, hd, h]
      · simp [simulateActivity, scrubEnv, hd, h, hg]

/-- Claim C3 witness: a darwin tick whose helper invocation fails
(cliclick absent, osascript errors) — same exit status and tick count
as the all-success run, same chosen command, loop proceeds. -/
theorem c3_tick_errors_absorbed_witness :
    ((runLoop "darwin" ([Event.tick ⟨false, some "exit status 1", "10:00:00"⟩].map scrubEvent)).exitCode =
       (runLoop "darwin" [Event.tick ⟨false, some "exit status 1", "10:00:00"⟩]).exitCode ∧
     (runLoop "darwin" ([Event.tick ⟨false, some "exit status 1", "10:00:00"⟩].map scrubEvent)).reports.length =
       (runLoop "darwin" [Event.tick ⟨false, some "exit status 1", "10:00:00"⟩]).reports.length) ∧
    ((simulateActivity "darwin" ⟨false, some "exit status 1", "10:00:00"⟩).cmd =
       (simulateActivity "darwin" (scrubEnv ⟨false, some "exit status 1", "10:00:00"⟩)).cmd ∧
     runLoop "darwin" (Event.tick ⟨false, some "exit status 1", "10:00:00"⟩ :: [Event.sig]) =
       { reports := simulateActivity "darwin" ⟨false, some "exit status 1", "10:00:00"⟩ ::
           (runLoop "darwin" [Event.sig]).reports,
         exitCode := (runLoop "darwin" [Event.sig]).exitCode }) :=
  ⟨(c3_tick_errors_absorbed "darwin" [Event.tick ⟨false, some "exit status 1", "10:00:00"⟩]
      ⟨false, some "exit status 1", "10:00:00"⟩ "exit status 1").1,
   (c3_tick_errors_absorbed "darwin" [Event.sig]
      ⟨false, some "exit status 1", "10:00:00"⟩ "exit status 1").2 rfl⟩

/-- Claim C7: the strategy is stateless across invocations — over any
sequence of per-tick environments the i-th report is a function of the
i-th environment alone (helper availability is rechecked each time, a
prior failure changes nothing), and N ticks sharing one failing
environment produce N identical, independent failure reports. -/
theorem c7_strategy_stateless (goos : String) (envs : List TickEnv)
    (env : TickEnv) (e : String) (n : Nat) :
    (runLoop goos (envs.map Event.tick)).reports = envs.map (simulateActivity goos) ∧
    (env.runResult = some e →
      (runLoop goos (List.replicate n (Event.tick env))).reports =
        List.replicate n (simulateActivity goos env)) := by
  constructor
  · induction envs with
    | nil => simp [runLoop]
    | cons a rest ih => simp [runLoop, ih]
  · intro _
    induction n with
    | zero => simp [runLoop]
    | succ m ih => simp [List.replicate_succ, runLoop, ih]

/-- Claim C7 witness: two ticks with cliclick availability differing
between them dispatch per-tick, and three ticks with one failing
environment yield three identical failure reports. -/
theorem c7_strategy_stateless_witness :
    (runLoop "darwin" ([⟨true, none, "08:00:00"⟩, ⟨false, some "exit status 1", "08:00:30"⟩].map Event.tick)).reports =
      [⟨true, none, "08:00:00"⟩, ⟨false, some "exit status 1", "08:00:30"⟩].map (simulateActivity "darwin") ∧
    (runLoop "darwin" (List.replicate 3 (Event.tick ⟨false, some "exit status 1", "09:00:00"⟩))).reports =
      List.replicate 3 (simulateActivity "darwin" ⟨false, some "exit status 1", "09:00:00"⟩) :=
  ⟨(c7_strategy_stateless "darwin"
      [⟨true, none, "08:00:00"⟩, ⟨false, some "exit status 1", "08:00:30"⟩]
      ⟨false, some "exit status 1", "09:00:00"⟩ "exit status 1" 3).1,
   (c7_strategy_stateless "darwin" []
      ⟨false, some "exit status 1", "09:00:00"⟩ "exit status 1" 3).2 rfl⟩

/-- Claim C8: the keyboard reader signals termination at most once
(after a matching token it returns, reading nothing further), and every
read error — malformed line, unexpected or missing newline, closed
input — is transient: the reader just continues on the rest of the
stream without signalling. -/
theorem c8_reader_signals_once (input : List Char) :
    monitorKeyboard input ≤ 1 ∧
    (∀ e rest, scanln input = (ScanResult.err e, rest) →
      monitorKeyboard input = monitorKeyboard rest) := by
  refine ⟨monitorAux_le_one input.length input, ?_⟩
  intro e rest h
  match input with
  | [] =>
    have heq : scanln ([] : List Char) = (ScanResult.err ScanErr.eofError, []) := rfl
    rw [heq] at h
    injection h with h1 h2
    rw [← h2]
  | c :: r =>
    rw [monitorKeyboard_step (c :: r) (by simp), h]

/-- Claim C8 witness: on the stream "q q\n" the first read fails with
the expected-newline error and the reader continues on the remaining
"\n" without signalling there. -/
theorem c8_reader_signals_once_witness :
    monitorKeyboard ("q q\n".data) ≤ 1 ∧
    monitorKeyboard ("q q\n".data) = monitorKeyboard ("\n".data) :=
  ⟨(c8_reader_signals_once ("q q\n".data)).1,
   (c8_reader_signals_once ("q q\n".data)).2 ScanErr.expectedNewline ("\n".data) (by decide)⟩

/-- Claim C4 counterexample: the input line "q " (quit token plus a
trailing blank) is not equal to "q", "quit" or "exit", yet it does
trigger termination — `fmt.Scanln` reads the token "q" and skips the
trailing blank before the newline, so the reader signals.  This
refutes "any other line ... does not". -/
theorem c4_counterexample :
    ("q " ≠ "q" ∧ "q " ≠ "quit" ∧ "q " ≠ "exit") ∧
    monitorKeyboard ("q \n".data) = 1 := by
  decide

/-- Claim C4 amended: matching is exact and case-sensitive on the
whitespace-delimited token `fmt.Scanln` extracts from the line — a
single-token line triggers exactly when that token is "q", "quit" or
"exit", so "Q", "Quit " and "exitnow" do not trigger while "q", "quit"
and "exit" do — but the read skips blanks around the token, so lines
such as "q " and " q" trigger as well. -/
theorem c4_token_match_amended (t : List Char) :
    (t ≠ [] → (∀ c ∈ t, goIsSpace c = false) →
      monitorKeyboard (t ++ ['\n']) = if isQuitToken (String.mk t) then 1 else 0) ∧
    monitorKeyboard ("q\n".data) = 1 ∧
    monitorKeyboard ("quit\n".data) = 1 ∧
    monitorKeyboard ("exit\n".data) = 1 ∧
    monitorKeyboard ("Q\n".data) = 0 ∧
    monitorKeyboard ("Quit \n".data) = 0 ∧
    monitorKeyboard ("exitnow\n".data) = 0 ∧
    monitorKeyboard ("q \n".data) = 1 ∧
    monitorKeyboard (" q\n".data) = 1 := by
  exact ⟨monitor_token_line t, by decide, by decide, by decide, by decide,
    by decide, by decide, by decide, by decide⟩

/-- Claim C4 amended witness: the general token law applied to the
concrete token "quit". -/
theorem c4_token_match_amended_witness :
    ("quit".data ≠ [] ∧ (∀ c ∈ "quit".data, goIsSpace c = false)) ∧
    monitorKeyboard ("quit".data ++ ['\n']) =
      if isQuitToken (String.mk "quit".data) then 1 else 0 :=
  ⟨⟨by decide, by decide⟩,
   (c4_token_match_amended "quit".data).1 (by decide) (by decide)⟩

set_option maxRecDepth 16384 in
/-- Claim C9 counterexample: on Windows a failing invocation is logged
as the single timestamped warning line carrying the error text and
nothing else — no line suggests installing anything, granting a
permission, or troubleshooting — whereas the darwin failure log does
carry such a hint.  This refutes "on every supported platform ... a
remediation hint". -/
theorem c9_counterexample :
    (simulateActivity "windows" ⟨true, some "exit status 1", "12:00:00"⟩).logs =
      ["[12:00:00] Warning: Failed to simulate mouse activity: exit status 1"] ∧
    hasRemediationHint
      (simulateActivity "windows" ⟨true, some "exit status 1", "12:00:00"⟩).logs = false ∧
    hasRemediationHint
      (simulateActivity "darwin" ⟨false, some "exit status 1", "12:00:00"⟩).logs = true := by
  refine ⟨rfl, ?_, ?_⟩ <;> rfl

set_option maxRecDepth 16384 in
/-- Claim C9 amended: every failure is logged with a timestamped
warning carrying the error; on macOS a second timestamped line adds the
remediation hint (install cliclick or grant accessibility permissions),
while on Windows the warning line is all there is — no remediation
hint.  On success a single timestamped success line is printed. -/
theorem c9_logging_amended (env : TickEnv) (errText : String) :
    (env.runResult = some errText →
      (simulateActivity "darwin" env).logs =
        ["[" ++ env.timestamp ++ "] Warning: Failed to simulate mouse activity: " ++ errText,
         "[" ++ env.timestamp ++ "] Troubleshooting: Try \x27brew install cliclick\x27 or grant accessibility permissions"] ∧
      hasRemediationHint (simulateActivity "darwin" env).logs = true ∧
      (simulateActivity "windows" env).logs =
        ["[" ++ env.timestamp ++ "] Warning: Failed to simulate mouse activity: " ++ errText]) ∧
    (env.runResult = none →
      (simulateActivity "darwin" env).logs =
        ["[" ++ env.timestamp ++ "] Simulated mouse activity"] ∧
      (simulateActivity "windows" env).logs =
        ["[" ++ env.timestamp ++ "] Simulated mouse activity"]) := by
  constructor
  · intro h
    have hdlogs : (simulateActivity "darwin" env).logs =
        ["[" ++ env.timestamp ++ "] Warning: Failed to simulate mouse activity: " ++ errText,
         "[" ++ env.timestamp ++ "] Troubleshooting: Try \x27brew install cliclick\x27 or grant accessibility permissions"] := by
      simp [simulateActivity, dispatchCmd, h]
    refine ⟨hdlogs, ?_, by simp [simulateActivity, dispatchCmd, h]⟩
    have hsub : strContainsSubstr
        "] Troubleshooting: Try \x27brew install cliclick\x27 or grant accessibility permissions"
        "Troubleshooting" = true := by rfl
    have hhint := strContainsSubstr_append_right ("[" ++ env.timestamp)
      "] Troubleshooting: Try \x27brew install cliclick\x27 or grant accessibility permissions"
      "Troubleshooting" hsub
    simp [hasRemediationHint, hdlogs, hhint]
  · intro h
    exact ⟨by simp [simulateActivity, dispatchCmd, h],
      by simp [simulateActivity, dispatchCmd, h]⟩

/-- Claim C9 amended witness: a failing tick (error text "boom") and a
succeeding tick at timestamp 01:02:03. -/
theorem c9_logging_amended_witness :
    ((simulateActivity "darwin" ⟨false, some "boom", "01:02:03"⟩).logs =
       ["[" ++ "01:02:03" ++ "] Warning: Failed to simulate mouse activity: " ++ "boom",
        "[" ++ "01:02:03" ++ "] Troubleshooting: Try \x27brew install cliclick\x27 or grant accessibility permissions"] ∧
     hasRemediationHint (simulateActivity "darwin" ⟨false, some "boom", "01:02:03"⟩).logs = true ∧
     (simulateActivity "windows" ⟨false, some "boom", "01:02:03"⟩).logs =
       ["[" ++ "01:02:03" ++ "] Warning: Failed to simulate mouse activity: " ++ "boom"]) ∧
    ((simulateActivity "darwin" ⟨true, none, "01:02:03"⟩).logs =
       ["[" ++ "01:02:03" ++ "] Simulated mouse activity"] ∧
     (simulateActivity "windows" ⟨true, none, "01:02:03"⟩).logs =
       ["[" ++ "01:02:03" ++ "] Simulated mouse activity"]) :=
  ⟨(c9_logging_amended ⟨false, some "boom", "01:02:03"⟩ "boom").1 rfl,
   (c9_logging_amended ⟨true, none, "01:02:03"⟩ "boom").2 rfl⟩

/-- Claim C10 counterexample: the line "q q q" consists of a quit token
followed by two more whitespace-separated tokens, yet termination IS
signalled: the first read takes the token "q", fails the newline check
on the second token (consuming its character), and the rest of the
line stays buffered — the next read then completes the line-final "q"
as an exact quit token and sends the signal.  This refutes "no
termination is signalled ... the reader continues waiting for the next
line". -/
theorem c10_counterexample : monitorKeyboard ("q q q\n".data) = 1 := by
  decide

/-- Claim C10 amended: on a line of a token, a blank, and one more
whitespace-free token, the tokenizing read does report an error for the
extra token and that iteration sends nothing; but the error consumes
only up to the extra token's first character, the remainder of the line
is re-scanned rather than discarded, and a signal fires exactly when
the re-scan completes a line-final exact quit token.  Hence "q q" and
"quit now" signal nothing, while "q q q" and "x qq" do signal. -/
theorem c10_extra_token_amended (t1 : List Char) (b : Char) (t2 : List Char) :
    (t1 ≠ [] → (∀ c ∈ t1, goIsSpace c = false) → goIsSpace b = false →
      (∀ c ∈ t2, goIsSpace c = false) →
      (scanln (t1 ++ ' ' :: (b :: t2 ++ ['\n']))).1 =
        ScanResult.err ScanErr.expectedNewline ∧
      monitorKeyboard (t1 ++ ' ' :: (b :: t2 ++ ['\n'])) =
        if isQuitToken (String.mk t2) then 1 else 0) ∧
    monitorKeyboard ("q q\n".data) = 0 ∧
    monitorKeyboard ("quit now\n".data) = 0 ∧
    monitorKeyboard ("x qq\n".data) = 1 := by
  refine ⟨?_, by decide, by decide, by decide⟩
  intro h1 ht1 hb ht2
  have hs := scanln_two_token t1 b t2 h1 ht1 hb
  refine ⟨by rw [hs], ?_⟩
  rw [monitorKeyboard_step (t1 ++ ' ' :: (b :: t2 ++ ['\n'])) (by cases t1 <;> simp), hs]
  cases t2 with
  | nil => decide
  | cons c r => exact monitor_token_line (c :: r) (by simp) ht2

/-- Claim C10 amended witness: the two-token law at the line "q qq":
the first read errors, the re-scan completes the leftover "q" and
signals. -/
theorem c10_extra_token_amended_witness :
    ("q".data ≠ [] ∧ (∀ c ∈ "q".data, goIsSpace c = false) ∧
     goIsSpace 'q' = false ∧ (∀ c ∈ "q".data, goIsSpace c = false)) ∧
    (scanln ("q".data ++ ' ' :: ('q' :: "q".data ++ ['\n']))).1 =
      ScanResult.err ScanErr.expectedNewline ∧
    monitorKeyboard ("q".data ++ ' ' :: ('q' :: "q".data ++ ['\n'])) =
      if isQuitToken (String.mk "q".data) then 1 else 0 :=
  ⟨⟨by decide, by decide, by decide, by decide⟩,
   (c10_extra_token_amended "q".data 'q' "q".data).1
     (by decide) (by decide) (by decide) (by decide)⟩

end KeepAlive
